import Mathlib

/-!
Shallow embedding of the post lifecycle and versioning core of the
g11-content-service repository (src/controllers/postController.ts and the
SQL schema).  Posts, versions and association rows are modelled as lists;
SQL `UPDATE ... WHERE id = $1` becomes a map over the post list; a database
transaction (BEGIN ... COMMIT/ROLLBACK on one client) is modelled by the
operation returning `Except`: an error result commits nothing.  Operations
that the source runs *without* a transaction (plain pool queries, e.g.
`saveDraft`) instead return the partially written state alongside the
result.  Timestamps are natural numbers; `CURRENT_TIMESTAMP` during an
operation is the `now` argument.  The external tag validator is an oracle
`Nat → Bool` covering all of its failure modes (malformed id, not found,
inactive, unreachable, timeout).
-/

/-- Post status enum, from the `posts.status` CHECK constraint. -/
inductive Status where
  | draft
  | published
  | scheduled
  | archived
deriving DecidableEq, Repr

/-- Error produced by `createError(message, statusCode)`. -/
structure ApiError where
  message : String
  status : Nat
deriving DecidableEq, Repr

/-- A row of the `posts` table (columns relevant to the lifecycle core). -/
structure Post where
  id : Nat
  title : String
  slug : String
  content : String
  excerpt : Option String
  authorId : Nat
  status : Status
  featuredImageUrl : Option String
  metaTitle : Option String
  metaDescription : Option String
  publishedAt : Option Nat
  scheduledAt : Option Nat
  createdAt : Nat
  updatedAt : Nat
deriving DecidableEq, Repr

/-- A row of the `post_versions` table. -/
structure PostVersion where
  postId : Nat
  title : String
  content : String
  excerpt : Option String
  versionNumber : Nat
  createdBy : Nat
deriving DecidableEq, Repr

/-- Database state: the tables touched by the lifecycle core.  `nextId`
models the id generator (`gen_random_uuid()`): ids handed to new posts. -/
structure DbState where
  posts : List Post
  versions : List PostVersion
  postCategories : List (Nat × Nat)
  postTags : List (Nat × Nat)
  nextId : Nat
deriving DecidableEq, Repr

/-- Model of `SELECT ... FROM posts WHERE id = $1`, first row. -/
def findPost (s : DbState) (pid : Nat) : Option Post :=
  s.posts.find? (fun p => p.id == pid)

/-- Model of `SELECT MAX(version_number) FROM post_versions WHERE post_id = $1`,
with the `(max_version || 0)` default. -/
def maxVersion (s : DbState) (pid : Nat) : Nat :=
  (s.versions.filter (fun v => v.postId == pid)).foldl
    (fun acc v => max acc v.versionNumber) 0

/-- Model of `UPDATE posts SET ... WHERE id = $1`: applies `f` to every row whose id
matches (ids are unique in practice, but the SQL itself matches by id only). -/
def updateById (ps : List Post) (pid : Nat) (f : Post → Post) : List Post :=
  ps.map (fun p => if p.id == pid then f p else p)

/-- Model of `['admin', 'editor'].includes(req.user.role)`. -/
def isAdminOrEditor (role : String) : Bool :=
  role == "admin" || role == "editor"

/-- The uniform authorization check: author of the post, or admin/editor. -/
def canModify (post : Post) (uid : Nat) (role : String) : Bool :=
  post.authorId == uid || isAdminOrEditor role

/-- JavaScript truthiness of an optional string field of the request body:
`undefined` and the empty string are falsy. -/
def truthy (o : Option String) : Bool :=
  match o with
  | some str => str ≠ ""
  | none => false

/-- When a field is supplied, it overwrites the stored (nullable) column. -/
def optSet (newVal : Option String) (old : Option String) : Option String :=
  match newVal with
  | some v => some v
  | none => old

/-- Model of `slugify(title, { lower, strict, remove })`: lower-case,
spaces become dashes, every other non-alphanumeric character is dropped. -/
def slugifyChar (c : Char) : String :=
  if c = ' ' then ("-")
  else if c.isAlphanum then (Char.toLower c).toString
  else ("")

/-- Model of the slugify library call used by the controllers. -/
def slugify (t : String) : String :=
  String.join (t.toList.map slugifyChar)

/-- Test whether `SELECT id FROM posts WHERE slug = $1 [AND id != $2]` is non-empty. -/
def slugTaken (s : DbState) (exclude : Option Nat) (slug : String) : Bool :=
  s.posts.any (fun p => p.slug == slug && exclude ≠ some p.id)

/-- The collision probe: try `base`, then `base-1`, `base-2`, ... and keep
the first candidate no stored post (other than the excluded one) uses.
The candidate list is long enough that a free one always exists, so the
`getD` fallback is never reached. -/
def probeSlug (s : DbState) (exclude : Option Nat) (base : String) : String :=
  let candidates :=
    base :: (List.range (s.posts.length + 1)).map
      (fun n => base ++ "-" ++ toString (n + 1))
  (candidates.find? (fun c => !slugTaken s exclude c)).getD base

/-- The tag validator capability: `validateTags` succeeds iff every supplied
tag id passes the oracle (which folds together every failure mode: bad
format, 404, inactive, connection error, timeout). -/
def validateTagsOk (oracle : Nat → Bool) (tags : List Nat) : Bool :=
  tags.all oracle

/-- Model of `DELETE FROM post_categories WHERE post_id = $1` then re-insert. -/
def replaceLinks (links : List (Nat × Nat)) (pid : Nat) (ids : List Nat) :
    List (Nat × Nat) :=
  links.filter (fun l => l.1 ≠ pid) ++ ids.map (fun c => (pid, c))

/-- Model of JavaScript `String.prototype.trim`: strip whitespace from
both ends. -/
def jsTrim (s : String) : String :=
  String.mk (((s.toList.dropWhile Char.isWhitespace).reverse.dropWhile
    Char.isWhitespace).reverse)

/-- Boolean success test for `Except`. -/
def isOkE {ε α : Type} (e : Except ε α) : Bool :=
  match e with
  | .ok _ => true
  | .error _ => false

/-- The fields of a `PUT /api/posts/:id` body after `updatePostSchema`
validation.  `none` is an absent field; `createVersion` defaults to true
in the schema. -/
structure UpdateInput where
  title : Option String
  content : Option String
  excerpt : Option String
  featuredImageUrl : Option String
  metaTitle : Option String
  metaDescription : Option String
  categories : Option (List Nat)
  tags : Option (List Nat)
  status : Option Status
  createVersion : Bool
deriving DecidableEq, Repr

/-- The dynamic `UPDATE posts SET ...` built by `updatePost`: every supplied
field overwrites the column; a supplied status of `published` also resets
`published_at` to now; the slug column is rewritten only when a (truthy)
title was supplied; `updated_at` is always bumped. -/
def applyUpdateFields (inp : UpdateInput) (now : Nat) (slug : String)
    (p : Post) : Post :=
  { p with
    title := inp.title.getD p.title
    content := inp.content.getD p.content
    excerpt := optSet inp.excerpt p.excerpt
    featuredImageUrl := optSet inp.featuredImageUrl p.featuredImageUrl
    metaTitle := optSet inp.metaTitle p.metaTitle
    metaDescription := optSet inp.metaDescription p.metaDescription
    status := inp.status.getD p.status
    publishedAt := if inp.status = some Status.published then some now
                   else p.publishedAt
    slug := if truthy inp.title then slug else p.slug
    updatedAt := now }

/-- Model of `updatePost`: runs in a transaction (error result = ROLLBACK = nothing
committed).  Steps, in source order: find post; authorize; if
`createVersion && (title || content || excerpt)` snapshot the *current*
row as version `max+1`; regenerate the slug from a supplied title
(excluding this post from the collision probe); apply the dynamic update;
replace category links when a list is supplied; replace tag links when a
list is supplied, validating a non-empty list first and aborting the whole
transaction when validation fails. -/
def updatePost (oracle : Nat → Bool) (s : DbState) (now uid : Nat)
    (role : String) (pid : Nat) (inp : UpdateInput) : Except ApiError DbState :=
  match findPost s pid with
  | none => .error ⟨"Post not found", 404⟩
  | some post =>
    if canModify post uid role then
      let s1 :=
        if inp.createVersion &&
            (truthy inp.title || truthy inp.content || truthy inp.excerpt) then
          { s with versions := s.versions ++
              [⟨pid, post.title, post.content, post.excerpt,
                maxVersion s pid + 1, uid⟩] }
        else s
      let newSlug :=
        if truthy inp.title then
          probeSlug s1 (some pid) (slugify (inp.title.getD ("")))
        else post.slug
      let s2 := { s1 with
        posts := updateById s1.posts pid (applyUpdateFields inp now newSlug) }
      let s3 :=
        match inp.categories with
        | some cats =>
            { s2 with postCategories := replaceLinks s2.postCategories pid cats }
        | none => s2
      match inp.tags with
      | none => .ok s3
      | some ts =>
        if ts.isEmpty then
          .ok { s3 with postTags := s3.postTags.filter (fun l => l.1 ≠ pid) }
        else if validateTagsOk oracle ts then
          .ok { s3 with postTags := replaceLinks s3.postTags pid ts }
        else .error ⟨"Failed to validate tags", 400⟩
    else .error ⟨"Not authorized to update this post", 403⟩

/-- Body of `POST /api/posts` after `createPostSchema` validation; `status`
is kept as the raw string because `createPost` re-validates it and falls
back to draft. -/
structure CreateInput where
  title : String
  content : String
  excerpt : Option String
  featuredImageUrl : Option String
  metaTitle : Option String
  metaDescription : Option String
  categories : List Nat
  tags : List Nat
  status : String
  scheduledAt : Option Nat
deriving DecidableEq, Repr

/-- The status fallback `validStatuses.includes(status) ? status : 'draft'`. -/
def statusOfString (s : String) : Status :=
  if s = "draft" then .draft
  else if s = "published" then .published
  else if s = "scheduled" then .scheduled
  else if s = "archived" then .archived
  else .draft

/-- Model of `createPost`: transaction; validates title/content non-empty and title
length; probes a unique slug; inserts the post with whatever `scheduledAt`
the body carried (regardless of the resulting status); sets `published_at`
when the status is published; inserts category links without validation;
validates and inserts tag links (failure aborts everything); inserts the
initial version, numbered literally 1.  Returns the new state and post id. -/
def createPost (oracle : Nat → Bool) (s : DbState) (now authorId : Nat)
    (inp : CreateInput) : Except ApiError (DbState × Nat) :=
  if jsTrim inp.title = "" then
    .error ⟨"Title is required and cannot be empty", 400⟩
  else if jsTrim inp.content = "" then
    .error ⟨"Content is required and cannot be empty", 400⟩
  else if (jsTrim inp.title).length > 500 then
    .error ⟨"Title must be 500 characters or less", 400⟩
  else
    let slug := probeSlug s none (slugify inp.title)
    let postStatus := statusOfString inp.status
    let pid := s.nextId
    let post : Post :=
      { id := pid
        title := inp.title
        slug := slug
        content := inp.content
        excerpt := inp.excerpt
        authorId := authorId
        status := postStatus
        featuredImageUrl := inp.featuredImageUrl
        metaTitle := inp.metaTitle
        metaDescription := inp.metaDescription
        publishedAt := if postStatus = Status.published then some now else none
        scheduledAt := inp.scheduledAt
        createdAt := now
        updatedAt := now }
    if inp.tags ≠ [] && !validateTagsOk oracle inp.tags then
      .error ⟨"Failed to validate tags", 400⟩
    else
      .ok ({ s with
        posts := s.posts ++ [post]
        versions := s.versions ++
          [⟨pid, inp.title, inp.content, inp.excerpt, 1, authorId⟩]
        postCategories := s.postCategories ++ inp.categories.map (fun c => (pid, c))
        postTags := s.postTags ++ inp.tags.map (fun t => (pid, t))
        nextId := s.nextId + 1 }, pid)

/-- Model of `publishPost`: find, authorize, then unconditionally set status to
published with fresh `published_at`/`updated_at`; `scheduled_at` is not
touched. -/
def publishPost (s : DbState) (now uid : Nat) (role : String) (pid : Nat) :
    Except ApiError DbState :=
  match findPost s pid with
  | none => .error ⟨"Post not found", 404⟩
  | some post =>
    if canModify post uid role then
      .ok { s with posts := updateById s.posts pid (fun p =>
        { p with status := Status.published, publishedAt := some now,
                 updatedAt := now }) }
    else .error ⟨"Not authorized to publish this post", 403⟩

/-- Model of `schedulePost`: in source order, reject a target time not strictly in
the future; find the post; authorize; reject unless the current status is
draft; then set status/`scheduled_at`/`updated_at` and nothing else. -/
def schedulePost (s : DbState) (now uid : Nat) (role : String) (pid : Nat)
    (schedAt : Nat) : Except ApiError DbState :=
  if schedAt ≤ now then
    .error ⟨"Scheduled date must be in the future", 400⟩
  else match findPost s pid with
  | none => .error ⟨"Post not found", 404⟩
  | some post =>
    if canModify post uid role then
      if post.status ≠ Status.draft then
        .error ⟨"Only draft posts can be scheduled", 400⟩
      else
        .ok { s with posts := updateById s.posts pid (fun p =>
          { p with status := Status.scheduled, scheduledAt := some schedAt,
                   updatedAt := now }) }
    else .error ⟨"Not authorized to schedule this post", 403⟩

/-- Sort key used by `ORDER BY scheduled_at ASC` (due rows always carry a
non-null `scheduled_at`). -/
def schedKey (p : Post) : Nat :=
  p.scheduledAt.getD 0

/-- Model of `SELECT id, title, scheduled_at FROM posts WHERE status = 'scheduled'
AND scheduled_at <= $1 ORDER BY scheduled_at ASC`. -/
def duePosts (s : DbState) (now : Nat) : List Post :=
  (s.posts.filter (fun p =>
    p.status == Status.scheduled &&
      (match p.scheduledAt with
       | some t => t ≤ now
       | none => false))).insertionSort
    (fun a b => schedKey a ≤ schedKey b)

/-- The sweep's per-post transaction: `UPDATE posts SET status =
'published', published_at = CURRENT_TIMESTAMP, updated_at =
CURRENT_TIMESTAMP WHERE id = $1` — conditioned on the id only. -/
def publishStepById (s : DbState) (pid : Nat) (now : Nat) : DbState :=
  { s with posts := updateById s.posts pid (fun p =>
      { p with status := Status.published, publishedAt := some now,
               updatedAt := now }) }

/-- One entry of the sweep's `publishedPosts` response list. -/
structure PublishedInfo where
  id : Nat
  title : String
  publishedAt : Nat
deriving DecidableEq, Repr

/-- Model of `publishScheduledPosts`: read the due list once, then publish each due
post in its own per-post transaction via `publishStepById`, accumulating
`{id, title, publishedAt: now}` result entries. -/
def publishScheduledPosts (s : DbState) (now : Nat) :
    DbState × List PublishedInfo :=
  (duePosts s now).foldl
    (fun acc p => (publishStepById acc.1 p.id now, acc.2 ++ [⟨p.id, p.title, now⟩]))
    (s, [])

/-- Model of `SELECT * FROM post_versions WHERE post_id = $1 AND version_number = $2`. -/
def findVersion (s : DbState) (pid vnum : Nat) : Option PostVersion :=
  s.versions.find? (fun v => v.postId == pid && v.versionNumber == vnum)

/-- Model of `restorePostVersion`: transaction; find post; authorize; look up the
target version (404 aborts with nothing written); back the *current*
title/content/excerpt up as version `max+1`; then overwrite the post's
title/content/excerpt from the target version, bumping only `updated_at`. -/
def restorePostVersion (s : DbState) (now uid : Nat) (role : String)
    (pid vnum : Nat) : Except ApiError DbState :=
  match findPost s pid with
  | none => .error ⟨"Post not found", 404⟩
  | some post =>
    if canModify post uid role then
      match findVersion s pid vnum with
      | none => .error ⟨"Version not found", 404⟩
      | some v =>
        let s1 : DbState := { s with versions := s.versions ++
          [⟨pid, post.title, post.content, post.excerpt,
            maxVersion s pid + 1, uid⟩] }
        .ok { s1 with posts := updateById s1.posts pid (fun p =>
          { p with title := v.title, content := v.content,
                   excerpt := v.excerpt, updatedAt := now }) }
    else .error ⟨"Not authorized to restore versions of this post", 403⟩

/-- Body of `POST /api/posts/drafts` (`saveDraft`), creation path fields. -/
structure DraftInput where
  title : String
  content : String
  excerpt : Option String
  featuredImageUrl : Option String
  metaTitle : Option String
  metaDescription : Option String
  categories : List Nat
  tags : List Nat
  postId : Option Nat
deriving DecidableEq, Repr

/-- Model of `saveDraft`: runs on the pool with NO transaction, so every query that
completed before a failure stays committed; the function therefore returns
the (possibly partially written) state alongside the result.  Creation path
(`postId` absent): probe a slug, insert the post with status draft, insert
category links, then validate and insert tag links — a tag failure leaves
the already-inserted post and categories in place.  No version row is ever
inserted.  Update path (`postId` present): authorize, then overwrite
title/content/excerpt/image/meta fields. -/
def saveDraft (oracle : Nat → Bool) (s : DbState) (now uid : Nat)
    (role : String) (inp : DraftInput) : DbState × Except ApiError Nat :=
  match inp.postId with
  | some pid =>
    (match findPost s pid with
     | none => (s, .error ⟨"Post not found", 404⟩)
     | some post =>
       if canModify post uid role then
         ({ s with posts := updateById s.posts pid (fun p =>
            { p with title := inp.title, content := inp.content,
                     excerpt := inp.excerpt,
                     featuredImageUrl := inp.featuredImageUrl,
                     metaTitle := inp.metaTitle,
                     metaDescription := inp.metaDescription,
                     updatedAt := now }) }, .ok pid)
       else (s, .error ⟨"Not authorized to update this post", 403⟩))
  | none =>
    let slug := probeSlug s none (slugify inp.title)
    let pid := s.nextId
    let post : Post :=
      { id := pid
        title := inp.title
        slug := slug
        content := inp.content
        excerpt := inp.excerpt
        authorId := uid
        status := Status.draft
        featuredImageUrl := inp.featuredImageUrl
        metaTitle := inp.metaTitle
        metaDescription := inp.metaDescription
        publishedAt := none
        scheduledAt := none
        createdAt := now
        updatedAt := now }
    let s1 := { s with
      posts := s.posts ++ [post]
      postCategories := s.postCategories ++ inp.categories.map (fun c => (pid, c))
      nextId := s.nextId + 1 }
    if inp.tags ≠ [] && !validateTagsOk oracle inp.tags then
      (s1, .error ⟨"Failed to validate tags", 400⟩)
    else
      ({ s1 with postTags := s1.postTags ++ inp.tags.map (fun t => (pid, t)) },
       .ok pid)

/-- The query-string filters of `GET /api/posts` that drive the dynamic SQL
builder in `getPosts` (pagination values do not affect which placeholders
are emitted). -/
structure ListQuery where
  status : Option String
  authorId : Option Nat
  categoryId : Option Nat
  tagId : Option Nat
  search : Option String
  includeDrafts : Bool
deriving DecidableEq, Repr

/-- Shape of the SQL statement `getPosts` builds: which `$n` placeholders
the text references, and how many values are passed to `db.query`. -/
structure QueryPlan where
  refs : List Nat
  nparams : Nat
deriving DecidableEq, Repr

/-- Faithful trace of `getPosts`'s builder: each filter bumps `paramCount`,
appends a `$paramCount` reference and pushes a value — except the default
published filter, which bumps `paramCount` and emits the literal
`p.status = 'published'` without pushing a value.  The search filter
references its single placeholder five times; LIMIT and OFFSET each add a
placeholder and a value. -/
def getPostsPlan (q : ListQuery) : QueryPlan :=
  let st : Nat × List Nat × Nat :=
    match q.status with
    | some _ => (1, [1], 1)
    | none => if !q.includeDrafts then (1, [], 0) else (0, [], 0)
  let st :=
    match q.authorId with
    | some _ => (st.1 + 1, st.2.1 ++ [st.1 + 1], st.2.2 + 1)
    | none => st
  let st :=
    match q.categoryId with
    | some _ => (st.1 + 1, st.2.1 ++ [st.1 + 1], st.2.2 + 1)
    | none => st
  let st :=
    match q.tagId with
    | some _ => (st.1 + 1, st.2.1 ++ [st.1 + 1], st.2.2 + 1)
    | none => st
  let st :=
    match q.search with
    | some _ => (st.1 + 1,
        st.2.1 ++ [st.1 + 1, st.1 + 1, st.1 + 1, st.1 + 1, st.1 + 1],
        st.2.2 + 1)
    | none => st
  let st := (st.1 + 1, st.2.1 ++ [st.1 + 1], st.2.2 + 1)
  let st := (st.1 + 1, st.2.1 ++ [st.1 + 1], st.2.2 + 1)
  ⟨st.2.1, st.2.2⟩

/-- PostgreSQL accepts a parameterized statement only when the highest
referenced placeholder equals the number of supplied values and every
placeholder from `$1` up to that maximum is referenced (an unreferenced
lower placeholder has no inferable type). -/
def planOk (p : QueryPlan) : Bool :=
  let maxRef := p.refs.foldr max 0
  maxRef == p.nparams &&
    (List.range maxRef).all (fun i => p.refs.contains (i + 1))

/-- The request the C9 claim quantifies over: no status filter, no
includeDrafts override, no other filters. -/
def defaultListQuery : ListQuery :=
  ⟨none, none, none, none, none, false⟩

/-- A tag validator for which every tag id checks out as existing/active. -/
def oracleTrue : Nat → Bool := fun _ => true

/-- A tag validator for which every lookup fails (service down / invalid). -/
def oracleFalse : Nat → Bool := fun _ => false

/-- A concrete draft post used by witnesses and counterexamples. -/
def samplePost : Post :=
  ⟨1, "Hello", "hello", "Body", some ("Old"), 7, Status.draft, none, none, none,
   none, none, 0, 0⟩

/-- Its initial (creation-time) version row. -/
def sampleVersion : PostVersion := ⟨1, "Hello", "Body", some ("Old"), 1, 7⟩

/-- A one-post database state with its version history. -/
def sampleState : DbState := ⟨[samplePost], [sampleVersion], [], [], 2⟩

/-- An update body that supplies only `excerpt = ""` (valid per
`updatePostSchema`, which `.allow('')`s the excerpt) and leaves
`createVersion` at its default of true. -/
def emptyExcerptInput : UpdateInput :=
  ⟨none, none, some (""), none, none, none, none, none, none, true⟩

/-- A draft-save creation body with no categories and no tags. -/
def plainDraftInput : DraftInput :=
  ⟨"T", "C", none, none, none, none, [], [], none⟩

/-- A state with one due scheduled post (`scheduled_at = 5`). -/
def dueState : DbState :=
  ⟨[{ samplePost with status := Status.scheduled, scheduledAt := some 5 }],
   [], [], [], 2⟩

/-- A draft-save creation body carrying category 9 and tag 3. -/
def taggedDraftInput : DraftInput :=
  ⟨"T", "C", none, none, none, none, [9], [3], none⟩

/-- A state in which post 1 was due (`scheduled_at = 3`) but has already
been published (at time 4) by a racing publish between the sweep's
due-list read and its per-post update. -/
def racedState : DbState :=
  ⟨[{ samplePost with
      status := Status.published
      publishedAt := some 4
      scheduledAt := some 3 }], [], [], [], 2⟩

/-- Snapshot row `updatePost`/`restorePostVersion` write for a post's
pre-write state: its stored title/content/excerpt, numbered `max + 1`. -/
def snapshotOf (s : DbState) (pid uid : Nat) (post : Post) : PostVersion :=
  ⟨pid, post.title, post.content, post.excerpt, maxVersion s pid + 1, uid⟩

/-- An update body supplying only a non-empty content, all else default. -/
def contentInput : UpdateInput :=
  ⟨none, some ("NewBody"), none, none, none, none, none, none, none, true⟩

/-- An already-published post (id 1, published at time 3). -/
def pubPost : Post :=
  { samplePost with status := Status.published, publishedAt := some 3 }

/-- State holding the already-published post. -/
def pubState : DbState := ⟨[pubPost], [sampleVersion], [], [], 2⟩

/-- An update body supplying only `status = "published"`. -/
def statusInput : UpdateInput :=
  ⟨none, none, none, none, none, none, none, none, some Status.published, true⟩

/-- C3 counterpart fixture: the creation body used by the C3/C4 witnesses. -/
def cInput : CreateInput :=
  ⟨"New", "NewBody", some ("E"), none, none, none, [], [], "draft", none⟩

/-- The row the sweep produces for the due post of `dueState` at time 10. -/
def sweptPost : Post :=
  { samplePost with
    status := Status.published
    publishedAt := some 10
    scheduledAt := some 5
    updatedAt := 10 }

/-- An update body supplying the single tag 3 and nothing else. -/
def tagUpdateInput : UpdateInput :=
  ⟨none, none, none, none, none, none, none, some [3], none, true⟩

/-- Concrete due scheduled post A for the C6 witness. -/
def duePostA : Post :=
  ⟨1, "A", "a", "CA", none, 7, Status.scheduled, none, none, none, none,
   some 5, 0, 0⟩

/-- Concrete not-yet-due scheduled post B for the C6 witness. -/
def pendingPostB : Post :=
  ⟨2, "B", "b", "CB", none, 7, Status.scheduled, none, none, none, none,
   some 99, 0, 0⟩

/-- Concrete draft post C for the C6 witness. -/
def draftPostC : Post :=
  ⟨3, "C", "c", "CC", none, 7, Status.draft, none, none, none, none,
   none, 0, 0⟩

/-- Looking a post up by id after an `UPDATE ... WHERE id` that preserves
ids returns the updated row. -/
theorem find?_updateById (ps : List Post) (pid : Nat) (f : Post → Post)
    (hf : ∀ p, (f p).id = p.id) :
    List.find? (fun p => p.id == pid) (updateById ps pid f) =
      (List.find? (fun p => p.id == pid) ps).map f := by
  induction ps with
  | nil => rfl
  | cons a l ih =>
    simp only [updateById, List.map_cons] at ih ⊢
    by_cases h : a.id = pid
    · rw [if_pos (by simpa using h)]
      rw [List.find?_cons_of_pos _ (by simp [hf a, h]),
        List.find?_cons_of_pos _ (by simp [h])]
      rfl
    · rw [if_neg (by simpa using h)]
      rw [List.find?_cons_of_neg _ (by simp [h]),
        List.find?_cons_of_neg _ (by simp [h]), ih]

/-- Looking the post up after `publishStepById`. -/
theorem findPost_publishStepById (s : DbState) (pid now : Nat) :
    findPost (publishStepById s pid now) pid =
      (findPost s pid).map (fun p =>
        { p with status := Status.published, publishedAt := some now,
                 updatedAt := now }) := by
  unfold findPost publishStepById
  exact find?_updateById s.posts pid
    (fun p => { p with status := Status.published, publishedAt := some now,
                       updatedAt := now })
    (fun p => rfl)

/-- C1 counterexample: the post's author updates the post supplying
`excerpt: ""` with version creation at its default.  The claim requires a
new version row, but `updatePost` guards the snapshot with JavaScript
truthiness `(title || content || excerpt)`, which treats the empty string
as absent: the update succeeds, the stored excerpt becomes `""`, and the
version table still holds exactly the one old row. -/
theorem update_empty_excerpt_skips_snapshot :
    emptyExcerptInput.createVersion = true ∧
    emptyExcerptInput.excerpt = some ("") ∧
    (updatePost oracleTrue sampleState 10 7 "author" 1 emptyExcerptInput).map
        (fun s => ((s.versions.filter (fun v => v.postId == 1)).length,
                   (findPost s 1).map Post.excerpt)) =
      .ok (1, some (some (""))) :=
  ⟨rfl, rfl, rfl⟩

/-- C3 counterexample: creating a new draft through `saveDraft` succeeds
(the new post gets id 2) yet inserts no version row at all for it, against
the claim that every creation path writes version 1. -/
theorem save_draft_creates_no_version :
    (saveDraft oracleTrue sampleState 10 7 "author" plainDraftInput).2 =
        .ok 2 ∧
    (findPost (saveDraft oracleTrue sampleState 10 7 "author"
        plainDraftInput).1 2).isSome = true ∧
    ((saveDraft oracleTrue sampleState 10 7 "author"
        plainDraftInput).1.versions.filter (fun v => v.postId == 2)) = [] :=
  ⟨rfl, rfl, rfl⟩

/-- C4 counterexample: sweeping `dueState` at time 10 publishes the post
but leaves `scheduled_at = 5` in place on the now-published post, because
the sweep's UPDATE never clears the column — the claimed invariant
"`scheduled_at` is non-null only while status is `scheduled`" fails. -/
theorem sweep_leaves_scheduled_at_set :
    (findPost (publishScheduledPosts dueState 10).1 1).map
        (fun p => (p.status, p.scheduledAt)) =
      some (Status.published, some 5) :=
  rfl

/-- C5 counterexample: `saveDraft` runs on the pool without a transaction;
when tag 3 fails validation the call reports the validation error, yet the
freshly inserted post (id 2) and its category link are already committed
and remain — the claimed "no state changes are committed / absence of the
post" fails on the draft-creation path. -/
theorem save_draft_tag_failure_leaves_post :
    (saveDraft oracleFalse sampleState 10 7 "author" taggedDraftInput).2 =
        .error ⟨"Failed to validate tags", 400⟩ ∧
    (findPost (saveDraft oracleFalse sampleState 10 7 "author"
        taggedDraftInput).1 2).isSome = true ∧
    (saveDraft oracleFalse sampleState 10 7 "author"
        taggedDraftInput).1.postCategories = [(2, 9)] :=
  ⟨rfl, rfl, rfl⟩

/-- C7 counterexample: the sweep's per-post UPDATE is `WHERE id = $1` with
no status condition, so executing it against a post that is already
`published` still modifies the row, resetting `published_at` from 4 to the
sweep time 10 — the claim that such a post is skipped is false. -/
theorem sweep_step_modifies_published_post :
    (findPost racedState 1).map Post.status = some Status.published ∧
    publishStepById racedState 1 10 ≠ racedState ∧
    (findPost (publishStepById racedState 1 10) 1).map Post.publishedAt =
      some (some 10) :=
  ⟨rfl, by decide, rfl⟩

/-- C9: the default `GET /api/posts` request (no status filter, no
includeDrafts) hits the builder branch that appends the literal
`p.status = 'published'` while still incrementing `paramCount`, so the
statement text references `$2` and `$3` but only two values are bound —
PostgreSQL rejects every such query, and the route answers with an error
instead of the published posts. -/
theorem default_list_query_param_mismatch :
    getPostsPlan defaultListQuery = ⟨[2, 3], 2⟩ ∧
    planOk (getPostsPlan defaultListQuery) = false :=
  ⟨rfl, rfl⟩

/-- Auxiliary: looking up the post after the dynamic update rewrote it. -/
theorem findPost_after_update (ps : List Post) (pid : Nat)
    (inp : UpdateInput) (now : Nat) (slug : String) (post : Post)
    (hfind : List.find? (fun p => p.id == pid) ps = some post) :
    List.find? (fun p => p.id == pid)
        (updateById ps pid (applyUpdateFields inp now slug)) =
      some (applyUpdateFields inp now slug post) := by
  rw [find?_updateById ps pid (applyUpdateFields inp now slug) (fun p => rfl),
    hfind]
  rfl

/-- The shape of every successful `updatePost`: the version table gains the
pre-update snapshot exactly when the truthiness-guarded condition held, and
the stored post is the dynamic update applied to the pre-update row. -/
theorem updatePost_ok_shape (oracle : Nat → Bool) (s : DbState)
    (now uid : Nat) (role : String) (pid : Nat) (inp : UpdateInput)
    (post : Post) (s' : DbState)
    (hfind : findPost s pid = some post)
    (hok : updatePost oracle s now uid role pid inp = .ok s') :
    s'.versions = (if inp.createVersion &&
        (truthy inp.title || truthy inp.content || truthy inp.excerpt) then
        s.versions ++ [snapshotOf s pid uid post] else s.versions) ∧
    ∃ p', findPost s' pid = some p' ∧
      p'.title = inp.title.getD post.title ∧
      p'.content = inp.content.getD post.content ∧
      p'.excerpt = optSet inp.excerpt post.excerpt ∧
      p'.status = inp.status.getD post.status ∧
      p'.publishedAt = (if inp.status = some Status.published then some now
                        else post.publishedAt) ∧
      p'.scheduledAt = post.scheduledAt ∧
      p'.updatedAt = now := by
  obtain ⟨t, c, e, fi, mt, md, cats, tags, st, cv⟩ := inp
  unfold updatePost at hok
  simp only [hfind] at hok
  by_cases hcan : canModify post uid role
  · rw [if_pos hcan] at hok
    by_cases hcond : (cv && (truthy t || truthy c || truthy e)) = true
    all_goals (
      simp only [hcond, if_true, if_false] at hok ⊢
      cases cats <;> cases tags <;>
        simp only [] at hok)
    all_goals (
      first
      | (exact Except.noConfusion hok)
      | (injection hok with h; subst h
         exact ⟨rfl, ⟨_, findPost_after_update _ _ _ _ _ _ hfind,
           rfl, rfl, rfl, rfl, rfl, rfl, rfl⟩⟩)
      | (split at hok <;>
         first
         | (exact Except.noConfusion hok)
         | (injection hok with h; subst h
            exact ⟨rfl, ⟨_, findPost_after_update _ _ _ _ _ _ hfind,
              rfl, rfl, rfl, rfl, rfl, rfl, rfl⟩⟩)
         | (split at hok <;>
            first
            | (exact Except.noConfusion hok)
            | (injection hok with h; subst h
               exact ⟨rfl, ⟨_, findPost_after_update _ _ _ _ _ _ hfind,
                 rfl, rfl, rfl, rfl, rfl, rfl, rfl⟩⟩))))
  · rw [if_neg hcan] at hok
    exact absurd hok (by simp)

/-- C1 (amended): for every existing post, every successful authorized
update that supplies a *non-empty* title, content, or excerpt value and
requests version creation inserts exactly one new version capturing the
post's stored values immediately before the update, numbered
`max(existing version numbers, default 0) + 1`, and the post afterwards
carries the requested field changes. -/
theorem update_nonempty_field_snapshots_previous_state
    (oracle : Nat → Bool) (s : DbState) (now uid : Nat) (role : String)
    (pid : Nat) (inp : UpdateInput) (post : Post)
    (hfind : findPost s pid = some post)
    (hcv : inp.createVersion = true)
    (ht : (truthy inp.title || truthy inp.content || truthy inp.excerpt)
        = true)
    (hok : isOkE (updatePost oracle s now uid role pid inp) = true) :
    ∃ s', updatePost oracle s now uid role pid inp = .ok s' ∧
      s'.versions = s.versions ++ [snapshotOf s pid uid post] ∧
      ∃ p', findPost s' pid = some p' ∧
        p'.title = inp.title.getD post.title ∧
        p'.content = inp.content.getD post.content ∧
        p'.excerpt = optSet inp.excerpt post.excerpt := by
  cases hres : updatePost oracle s now uid role pid inp with
  | error e => rw [hres] at hok; exact absurd hok (by simp [isOkE])
  | ok s' =>
    obtain ⟨hv, p', hp', h1, h2, h3, _, _, _, _⟩ :=
      updatePost_ok_shape oracle s now uid role pid inp post s' hfind hres
    refine ⟨s', rfl, ?_, p', hp', h1, h2, h3⟩
    rw [hv]
    simp [hcv, ht]

/-- C1 witness: the author updates post 1 of the sample state with a
non-empty content; the pre-update snapshot appears as version 2 and the
content change is applied. -/
theorem update_nonempty_field_snapshots_previous_state_witness :
    ∃ s', updatePost oracleTrue sampleState 10 7 "author" 1 contentInput =
        .ok s' ∧
      s'.versions = sampleState.versions ++
        [snapshotOf sampleState 1 7 samplePost] ∧
      ∃ p', findPost s' 1 = some p' ∧
        p'.title = contentInput.title.getD samplePost.title ∧
        p'.content = contentInput.content.getD samplePost.content ∧
        p'.excerpt = optSet contentInput.excerpt samplePost.excerpt :=
  update_nonempty_field_snapshots_previous_state oracleTrue sampleState
    10 7 "author" 1 contentInput samplePost rfl rfl rfl rfl

/-- C10: the generic update applies any supplied status regardless of the
post's current status — no state-machine guard beyond authorization exists
— and a supplied status of `published` resets `published_at` to now even if
the post was already published, while any other supplied status leaves
`published_at` untouched. -/
theorem update_status_unguarded
    (oracle : Nat → Bool) (s : DbState) (now uid : Nat) (role : String)
    (pid : Nat) (inp : UpdateInput) (post : Post) (st : Status)
    (hfind : findPost s pid = some post)
    (hst : inp.status = some st)
    (hok : isOkE (updatePost oracle s now uid role pid inp) = true) :
    ∃ s' p', updatePost oracle s now uid role pid inp = .ok s' ∧
      findPost s' pid = some p' ∧ p'.status = st ∧
      (st = Status.published → p'.publishedAt = some now) ∧
      (st ≠ Status.published → p'.publishedAt = post.publishedAt) := by
  cases hres : updatePost oracle s now uid role pid inp with
  | error e => rw [hres] at hok; exact absurd hok (by simp [isOkE])
  | ok s' =>
    obtain ⟨_, p', hp', _, _, _, hstatus, hpub, _, _⟩ :=
      updatePost_ok_shape oracle s now uid role pid inp post s' hfind hres
    refine ⟨s', p', rfl, hp', ?_, ?_, ?_⟩
    · rw [hstatus, hst]; rfl
    · intro h; rw [hpub, if_pos (by rw [hst, h])]
    · intro h; rw [hpub, if_neg (by rw [hst]; simpa using h)]

/-- C10 witness: an already-published post (published at 3) is updated with
status `published` again at time 10: the status is accepted and
`published_at` is reset to 10. -/
theorem update_status_unguarded_witness :
    ∃ s' p', updatePost oracleTrue pubState 10 7 "author" 1 statusInput =
        .ok s' ∧
      findPost s' 1 = some p' ∧ p'.status = Status.published ∧
      (Status.published = Status.published → p'.publishedAt = some 10) ∧
      (Status.published ≠ Status.published →
        p'.publishedAt = pubPost.publishedAt) :=
  update_status_unguarded oracleTrue pubState 10 7 "author" 1 statusInput
    pubPost Status.published rfl rfl rfl

/-- C2: restoring an existing post to version V by an authorized caller:
if V does not exist the call fails with the not-found error (and, being a
rolled-back transaction, commits nothing); if it exists, exactly one
backup version capturing the current title/content/excerpt is appended
(numbered max + 1) and the post's title/content/excerpt are overwritten
with V's values, bumping only `updated_at`: status, slug, `published_at`
and `scheduled_at` keep their previous values. -/
theorem restore_backs_up_then_overwrites (s : DbState) (now uid : Nat)
    (role : String) (pid vnum : Nat) (post : Post)
    (hfind : findPost s pid = some post)
    (hauth : canModify post uid role = true) :
    (findVersion s pid vnum = none →
      restorePostVersion s now uid role pid vnum =
        .error ⟨"Version not found", 404⟩) ∧
    (∀ v, findVersion s pid vnum = some v →
      ∃ s', restorePostVersion s now uid role pid vnum = .ok s' ∧
        s'.versions = s.versions ++ [snapshotOf s pid uid post] ∧
        ∃ p', findPost s' pid = some p' ∧
          p' = { post with
                 title := v.title
                 content := v.content
                 excerpt := v.excerpt
                 updatedAt := now } ∧
          p'.status = post.status ∧ p'.slug = post.slug ∧
          p'.publishedAt = post.publishedAt ∧
          p'.scheduledAt = post.scheduledAt) := by
  constructor
  · intro hv
    unfold restorePostVersion
    simp only [hfind, hauth, hv, if_true]
  · intro v hv
    unfold restorePostVersion
    simp only [hfind, hauth, hv, if_true]
    have hfp := find?_updateById s.posts pid
      (fun p => { p with
        title := v.title
        content := v.content
        excerpt := v.excerpt
        updatedAt := now })
      (fun p => rfl)
    have hfind' : List.find? (fun p => p.id == pid) s.posts = some post :=
      hfind
    rw [hfind'] at hfp
    exact ⟨_, rfl, rfl, _, hfp, rfl, rfl, rfl, rfl, rfl⟩

/-- C2 witness: restoring post 1 of the sample state to its version 1:
the not-found branch holds vacuously and the restore branch produces the
backup version 2 plus the overwritten post. -/
theorem restore_backs_up_then_overwrites_witness :
    (findVersion sampleState 1 1 = none →
      restorePostVersion sampleState 10 7 "author" 1 1 =
        .error ⟨"Version not found", 404⟩) ∧
    (∀ v, findVersion sampleState 1 1 = some v →
      ∃ s', restorePostVersion sampleState 10 7 "author" 1 1 = .ok s' ∧
        s'.versions = sampleState.versions ++
          [snapshotOf sampleState 1 7 samplePost] ∧
        ∃ p', findPost s' 1 = some p' ∧
          p' = { samplePost with
                 title := v.title
                 content := v.content
                 excerpt := v.excerpt
                 updatedAt := 10 } ∧
          p'.status = samplePost.status ∧ p'.slug = samplePost.slug ∧
          p'.publishedAt = samplePost.publishedAt ∧
          p'.scheduledAt = samplePost.scheduledAt) :=
  restore_backs_up_then_overwrites sampleState 10 7 "author" 1 1 samplePost
    rfl rfl

/-- C8: scheduling an existing post as an authorized caller fails with the
400 validation error whenever the target time is not strictly in the
future or the post is not currently a draft, and otherwise succeeds,
setting exactly status = scheduled, `scheduled_at` to the given time, and
`updated_at`; failures are rolled-back transactions committing nothing. -/
theorem schedule_post_guarded (s : DbState) (now uid : Nat) (role : String)
    (pid schedAt : Nat) (post : Post)
    (hfind : findPost s pid = some post)
    (hauth : canModify post uid role = true) :
    (schedAt ≤ now →
      schedulePost s now uid role pid schedAt =
        .error ⟨"Scheduled date must be in the future", 400⟩) ∧
    (now < schedAt → post.status ≠ Status.draft →
      schedulePost s now uid role pid schedAt =
        .error ⟨"Only draft posts can be scheduled", 400⟩) ∧
    (now < schedAt → post.status = Status.draft →
      ∃ s', schedulePost s now uid role pid schedAt = .ok s' ∧
        ∃ p', findPost s' pid = some p' ∧
          p' = { post with
                 status := Status.scheduled
                 scheduledAt := some schedAt
                 updatedAt := now }) := by
  refine ⟨?_, ?_, ?_⟩
  · intro h
    unfold schedulePost
    rw [if_pos h]
  · intro h1 h2
    unfold schedulePost
    rw [if_neg (Nat.not_le.mpr h1)]
    simp only [hfind, hauth, if_true]
    rw [if_pos h2]
  · intro h1 h2
    unfold schedulePost
    rw [if_neg (Nat.not_le.mpr h1)]
    simp only [hfind, hauth, if_true]
    rw [if_neg (by simp [h2])]
    have hfp := find?_updateById s.posts pid
      (fun p => { p with
        status := Status.scheduled
        scheduledAt := some schedAt
        updatedAt := now })
      (fun p => rfl)
    have hfind' : List.find? (fun p => p.id == pid) s.posts = some post :=
      hfind
    rw [hfind'] at hfp
    exact ⟨_, rfl, _, hfp, rfl⟩

/-- C8 witness: scheduling draft post 1 at target time 50 with now = 10:
the two failure branches hold (the first vacuously) and the success branch
yields the scheduled post. -/
theorem schedule_post_guarded_witness :
    (50 ≤ 10 →
      schedulePost sampleState 10 7 "author" 1 50 =
        .error ⟨"Scheduled date must be in the future", 400⟩) ∧
    (10 < 50 → samplePost.status ≠ Status.draft →
      schedulePost sampleState 10 7 "author" 1 50 =
        .error ⟨"Only draft posts can be scheduled", 400⟩) ∧
    (10 < 50 → samplePost.status = Status.draft →
      ∃ s', schedulePost sampleState 10 7 "author" 1 50 = .ok s' ∧
        ∃ p', findPost s' 1 = some p' ∧
          p' = { samplePost with
                 status := Status.scheduled
                 scheduledAt := some 50
                 updatedAt := 10 }) :=
  schedule_post_guarded sampleState 10 7 "author" 1 50 samplePost rfl rfl

/-- C3 (amended): creation through `createPost` inserts exactly one version
for the new post, numbered 1, mirroring the initial title/content/excerpt;
but the draft-save creation path (`saveDraft` without `postId`) inserts no
version record at all for the post it creates. -/
theorem creation_version_by_path :
    (∀ (oracle : Nat → Bool) (s : DbState) (now authorId : Nat)
        (inp : CreateInput) (s' : DbState) (pid : Nat),
      (∀ v ∈ s.versions, v.postId ≠ s.nextId) →
      createPost oracle s now authorId inp = .ok (s', pid) →
      s'.versions.filter (fun v => v.postId == pid) =
        [PostVersion.mk pid inp.title inp.content inp.excerpt 1 authorId]) ∧
    (∀ (oracle : Nat → Bool) (s : DbState) (now uid : Nat) (role : String)
        (inp : DraftInput) (s' : DbState) (pid : Nat),
      (∀ v ∈ s.versions, v.postId ≠ s.nextId) →
      inp.postId = none →
      saveDraft oracle s now uid role inp = (s', .ok pid) →
      s'.versions.filter (fun v => v.postId == pid) = []) := by
  constructor
  · intro oracle s now authorId inp s' pid hfresh hok
    unfold createPost at hok
    split at hok
    · exact Except.noConfusion hok
    · split at hok
      · exact Except.noConfusion hok
      · split at hok
        · exact Except.noConfusion hok
        · split at hok
          · exact Except.noConfusion hok
          · injection hok with h
            injection h with h1 h2
            subst h1; subst h2
            show (s.versions ++
              [PostVersion.mk s.nextId inp.title inp.content inp.excerpt 1
                authorId]).filter (fun v => v.postId == s.nextId) = _
            rw [List.filter_append,
              List.filter_eq_nil_iff.mpr
                (fun v hv => by simpa using hfresh v hv)]
            simp
  · intro oracle s now uid role inp s' pid hfresh hpid hok
    unfold saveDraft at hok
    simp only [hpid] at hok
    split at hok
    · injection hok with h1 h2
      exact Except.noConfusion h2
    · injection hok with h1 h2
      injection h2 with h3
      subst h1; subst h3
      show (s.versions.filter (fun v => v.postId == s.nextId)) = []
      exact List.filter_eq_nil_iff.mpr
        (fun v hv => by simpa using hfresh v hv)

/-- C3 witness: both conjuncts instantiated — creating through `createPost`
on the sample state yields exactly version 1 for post 2; creating a draft
through `saveDraft` yields no version for post 2. -/
theorem creation_version_by_path_witness :
    ((createPost oracleTrue sampleState 10 7 cInput).toOption.getD
        (sampleState, 0)).1.versions.filter (fun v => v.postId == 2) =
      [PostVersion.mk 2 cInput.title cInput.content cInput.excerpt 1 7] ∧
    (saveDraft oracleTrue sampleState 10 7 "author"
        plainDraftInput).1.versions.filter (fun v => v.postId == 2) = [] :=
  ⟨creation_version_by_path.1 oracleTrue sampleState 10 7 cInput
      ((createPost oracleTrue sampleState 10 7 cInput).toOption.getD
        (sampleState, 0)).1 2 (by decide) (by rfl),
   creation_version_by_path.2 oracleTrue sampleState 10 7 "author"
      plainDraftInput
      (saveDraft oracleTrue sampleState 10 7 "author" plainDraftInput).1 2
      (by decide) rfl (by rfl)⟩

/-- C7 (amended): the sweep's per-post publish UPDATE is conditioned only
on the post id, not on status: every stored post with the target id — no
matter its current status — is overwritten to published with a fresh
`published_at`, and every other post is untouched.  A post that changed
status between the due-list read and the per-post update is therefore
re-published, not skipped; only a deleted post would yield a zero-row
update. -/
theorem sweep_step_updates_any_status (s : DbState) (pid now : Nat)
    (p : Post) (hp : p ∈ s.posts) :
    (p.id = pid → { p with
        status := Status.published
        publishedAt := some now
        updatedAt := now } ∈ (publishStepById s pid now).posts) ∧
    (p.id ≠ pid → p ∈ (publishStepById s pid now).posts) := by
  constructor
  · intro h
    refine List.mem_map.mpr ⟨p, hp, ?_⟩
    simp [h]
  · intro h
    refine List.mem_map.mpr ⟨p, hp, ?_⟩
    simp [h]

/-- C7 amended witness: instantiated on the raced state, where post 1 is
already published: the step still rewrites it (first conjunct) and the
second holds vacuously. -/
theorem sweep_step_updates_any_status_witness :
    ((pubPost.id = 1 → { pubPost with
        status := Status.published
        publishedAt := some 10
        updatedAt := 10 } ∈ (publishStepById pubState 1 10).posts) ∧
     (pubPost.id ≠ 1 → pubPost ∈ (publishStepById pubState 1 10).posts)) :=
  sweep_step_updates_any_status pubState 1 10 pubPost (by decide)

/-- Auxiliary: the sweep's per-post fold only rewrites posts through
`publishStepById`, which preserves each row's id and `scheduled_at`. -/
theorem sweep_foldl_preserve (now : Nat) (l : List Post)
    (init : DbState × List PublishedInfo) (p' : Post)
    (h : p' ∈ (l.foldl (fun acc p =>
        (publishStepById acc.1 p.id now,
         acc.2 ++ [⟨p.id, p.title, now⟩])) init).1.posts) :
    ∃ p, p ∈ init.1.posts ∧ p'.id = p.id ∧
      p'.scheduledAt = p.scheduledAt := by
  induction l generalizing init with
  | nil => exact ⟨p', h, rfl, rfl⟩
  | cons a tl ih =>
    rw [List.foldl_cons] at h
    obtain ⟨q, hq, hid, hsched⟩ := ih _ h
    obtain ⟨p, hp, hpq⟩ := List.mem_map.mp hq
    refine ⟨p, hp, ?_, ?_⟩
    · rw [hid, ← hpq]
      by_cases hc : (p.id == a.id) = true <;> simp [hc]
    · rw [hsched, ← hpq]
      by_cases hc : (p.id == a.id) = true <;> simp [hc]

/-- C4 (amended): `scheduled_at` is not an invariant of the published
state: `createPost` stores whatever `scheduledAt` the body supplied,
regardless of the resulting status (null exactly when none was supplied),
and neither the sweep nor a direct publish ever clears `scheduled_at` — a
post published out of the scheduled state keeps its old `scheduled_at`, so
"non-null only while scheduled" fails across publishing. -/
theorem scheduled_at_behaviour :
    (∀ (oracle : Nat → Bool) (s : DbState) (now authorId : Nat)
        (inp : CreateInput) (s' : DbState) (pid : Nat),
      createPost oracle s now authorId inp = .ok (s', pid) →
      ∀ p ∈ s'.posts, p ∈ s.posts ∨ p.scheduledAt = inp.scheduledAt) ∧
    (∀ (s : DbState) (now : Nat) (p' : Post),
      p' ∈ (publishScheduledPosts s now).1.posts →
      ∃ p, p ∈ s.posts ∧ p'.id = p.id ∧ p'.scheduledAt = p.scheduledAt) ∧
    (∀ (s : DbState) (now uid : Nat) (role : String) (pid : Nat)
        (s' : DbState),
      publishPost s now uid role pid = .ok s' →
      ∀ p' ∈ s'.posts, ∃ p, p ∈ s.posts ∧ p'.id = p.id ∧
        p'.scheduledAt = p.scheduledAt) := by
  refine ⟨?_, ?_, ?_⟩
  · intro oracle s now authorId inp s' pid hok p hp
    unfold createPost at hok
    split at hok
    · exact Except.noConfusion hok
    · split at hok
      · exact Except.noConfusion hok
      · split at hok
        · exact Except.noConfusion hok
        · split at hok
          · exact Except.noConfusion hok
          · injection hok with h
            injection h with h1 h2
            subst h1; subst h2
            rcases List.mem_append.mp hp with hl | hr
            · exact Or.inl hl
            · right
              rw [List.mem_singleton.mp hr]
  · intro s now p' h
    exact sweep_foldl_preserve now (duePosts s now) (s, []) p' h
  · intro s now uid role pid s' hok p' hp'
    unfold publishPost at hok
    split at hok
    · exact Except.noConfusion hok
    · split at hok
      · injection hok with h
        subst h
        obtain ⟨p, hp, hpq⟩ := List.mem_map.mp hp'
        refine ⟨p, hp, ?_, ?_⟩
        · rw [← hpq]
          by_cases hc : (p.id == pid) = true <;> simp [hc]
        · rw [← hpq]
          by_cases hc : (p.id == pid) = true <;> simp [hc]
      · exact Except.noConfusion hok

/-- C4 witness: all three conjuncts instantiated — creating on the sample
state (no scheduledAt supplied), sweeping the due state (the swept post
keeps `scheduled_at = 5`), and publishing the due post directly. -/
theorem scheduled_at_behaviour_witness :
    (∀ p ∈ ((createPost oracleTrue sampleState 10 7 cInput).toOption.getD
        (sampleState, 0)).1.posts,
      p ∈ sampleState.posts ∨ p.scheduledAt = cInput.scheduledAt) ∧
    (∃ p, p ∈ dueState.posts ∧ sweptPost.id = p.id ∧
      sweptPost.scheduledAt = p.scheduledAt) ∧
    (∀ p' ∈ ((publishPost dueState 10 7 "author" 1).toOption.getD
        dueState).posts,
      ∃ p, p ∈ dueState.posts ∧ p'.id = p.id ∧
        p'.scheduledAt = p.scheduledAt) :=
  ⟨scheduled_at_behaviour.1 oracleTrue sampleState 10 7 cInput
      ((createPost oracleTrue sampleState 10 7 cInput).toOption.getD
        (sampleState, 0)).1 2 (by rfl),
   scheduled_at_behaviour.2.1 dueState 10 sweptPost (by decide),
   scheduled_at_behaviour.2.2 dueState 10 7 "author" 1
      ((publishPost dueState 10 7 "author" 1).toOption.getD dueState)
      (by rfl)⟩

/-- C5 (amended): when a supplied tag list fails validation, the
transactional update path aborts completely — the call returns the 400
validation error and (the transaction being rolled back) commits nothing —
but the non-transactional draft-creation path has already inserted the
post and its category links before validating tags: the call still
reports the 400 error, yet the new post remains stored (one extra posts
row, findable under the new id); only the tag links are absent. -/
theorem tag_validation_failure_semantics :
    (∀ (oracle : Nat → Bool) (s : DbState) (now uid : Nat) (role : String)
        (pid : Nat) (inp : UpdateInput) (post : Post) (ts : List Nat),
      findPost s pid = some post →
      canModify post uid role = true →
      inp.tags = some ts →
      validateTagsOk oracle ts = false →
      updatePost oracle s now uid role pid inp =
        .error ⟨"Failed to validate tags", 400⟩) ∧
    (∀ (oracle : Nat → Bool) (s : DbState) (now uid : Nat) (role : String)
        (inp : DraftInput),
      inp.postId = none →
      validateTagsOk oracle inp.tags = false →
      (saveDraft oracle s now uid role inp).2 =
          .error ⟨"Failed to validate tags", 400⟩ ∧
        (findPost (saveDraft oracle s now uid role inp).1 s.nextId).isSome
            = true ∧
        (saveDraft oracle s now uid role inp).1.postTags = s.postTags ∧
        (saveDraft oracle s now uid role inp).1.posts.length =
          s.posts.length + 1) := by
  constructor
  · intro oracle s now uid role pid inp post ts hfind hauth htags hbad
    have hne : ts ≠ [] := by
      intro h
      rw [h] at hbad
      exact absurd hbad (by simp [validateTagsOk])
    have hempty : ts.isEmpty = false := by
      cases ts
      · exact absurd rfl hne
      · rfl
    unfold updatePost
    simp only [hfind, hauth, if_true, htags]
    simp [hempty, hbad]
  · intro oracle s now uid role inp hpid hbad
    have hne : inp.tags ≠ [] := by
      intro h
      rw [h] at hbad
      exact absurd hbad (by simp [validateTagsOk])
    unfold saveDraft
    simp only [hpid]
    rw [if_pos (by simp [hbad, hne])]
    refine ⟨rfl, ?_, rfl, by simp⟩
    unfold findPost
    exact List.find?_isSome.mpr ⟨_,
      List.mem_append_right _ (List.mem_singleton_self _), by simp⟩

/-- C5 witness: both paths instantiated with the all-rejecting validator:
the update on post 1 aborts with the 400 error, and the draft creation
reports the 400 error while the new post (id 2) is nonetheless stored with
no tag links. -/
theorem tag_validation_failure_semantics_witness :
    updatePost oracleFalse sampleState 10 7 "author" 1 tagUpdateInput =
        .error ⟨"Failed to validate tags", 400⟩ ∧
    ((saveDraft oracleFalse sampleState 10 7 "author" taggedDraftInput).2 =
        .error ⟨"Failed to validate tags", 400⟩ ∧
      (findPost (saveDraft oracleFalse sampleState 10 7 "author"
          taggedDraftInput).1 sampleState.nextId).isSome = true ∧
      (saveDraft oracleFalse sampleState 10 7 "author"
          taggedDraftInput).1.postTags = sampleState.postTags ∧
      (saveDraft oracleFalse sampleState 10 7 "author"
          taggedDraftInput).1.posts.length =
        sampleState.posts.length + 1) :=
  ⟨tag_validation_failure_semantics.1 oracleFalse sampleState 10 7 "author"
      1 tagUpdateInput samplePost [3] rfl rfl rfl rfl,
   tag_validation_failure_semantics.2 oracleFalse sampleState 10 7 "author"
      taggedDraftInput rfl rfl⟩

/-- C6: against a state holding exactly a due scheduled post A, a
not-yet-due scheduled post B and a draft C (distinct ids), the sweep
publishes exactly A — setting its status to published and `published_at`
to now — leaves B and C (and every other table) completely unchanged, and
returns exactly `[{A.id, A.title, now}]`. -/
theorem sweep_publishes_exactly_due (pa pb pc : Post) (vs : List PostVersion)
    (cs ts : List (Nat × Nat)) (n now ta tb : Nat)
    (hpa : pa.status = Status.scheduled) (hsa : pa.scheduledAt = some ta)
    (hta : ta ≤ now)
    (hpb : pb.status = Status.scheduled) (hsb : pb.scheduledAt = some tb)
    (htb : now < tb)
    (hpc : pc.status = Status.draft)
    (hba : pb.id ≠ pa.id) (hca : pc.id ≠ pa.id) :
    publishScheduledPosts ⟨[pa, pb, pc], vs, cs, ts, n⟩ now =
      (⟨[{ pa with
           status := Status.published
           publishedAt := some now
           updatedAt := now }, pb, pc], vs, cs, ts, n⟩,
       [⟨pa.id, pa.title, now⟩]) := by
  have hdue : duePosts ⟨[pa, pb, pc], vs, cs, ts, n⟩ now = [pa] := by
    unfold duePosts
    simp [hpa, hsa, hpb, hsb, hpc, hta, Nat.not_le.mpr htb,
      List.insertionSort, List.orderedInsert]
  unfold publishScheduledPosts
  rw [hdue]
  simp only [List.foldl_cons, List.foldl_nil, List.nil_append]
  unfold publishStepById updateById
  simp [beq_iff_eq, hba, hca]

/-- C6 witness: sweeping the concrete A/B/C state at time 10 publishes
exactly A and returns exactly its result row. -/
theorem sweep_publishes_exactly_due_witness :
    publishScheduledPosts
        ⟨[duePostA, pendingPostB, draftPostC], [], [], [], 4⟩ 10 =
      (⟨[{ duePostA with
           status := Status.published
           publishedAt := some 10
           updatedAt := 10 }, pendingPostB, draftPostC], [], [], [], 4⟩,
       [⟨duePostA.id, duePostA.title, 10⟩]) :=
  sweep_publishes_exactly_due duePostA pendingPostB draftPostC [] [] [] 4
    10 5 99 rfl rfl (by decide) rfl rfl (by decide) rfl (by decide)
    (by decide)
